import Mathlib

/-!
Verification of the constrained nonlinear curve-fitting core of the XRD
post-processing application.

The embedding below translates the algorithmic decisions of the Python
source into Lean:

* `half_auto_fitting_dpg.py` — smoothing-window clamping
  (`DataProcessor.savgol_smoothing`), the pseudo-Voigt profile
  (`PeakProfile.pseudo_voigt`), background subtraction
  (`PeakFittingGUI.subtract_background`), automatic peak detection
  (`PeakDetector.auto_find_peaks`) and the per-peak batch fitting loop
  (`PeakFittingGUI.fit_peaks`).
* `interactive_eos_gui_dpg.py` / `interactive_eos_gui.py` — the
  multi-strategy retry controller (`fit_multiple_strategies`), the
  lock-aware partial fit (`fit_unlocked`) and the EoS-model switch
  handler (`on_eos_changed`).

Machine floats are modelled by `ℚ`.  Calls into external numeric
libraries (the bounded least-squares optimizer `scipy.optimize.curve_fit`,
the filter kernel of `scipy.signal.savgol_filter`, the smoothing spline
`scipy.interpolate.UnivariateSpline`, `scipy.signal.find_peaks`,
`scipy.ndimage.gaussian_filter1d`, `numpy.exp`) are abstracted as
function parameters; where a theorem depends on a documented contract of
such a library call, that contract appears as an explicit hypothesis.
-/

/-! ### Savitzky–Golay window clamping
(`DataProcessor.savgol_smoothing`, half_auto_fitting_dpg.py lines 53-81) -/

/-- What `savgol_smoothing` does with its input: either return the trace
unchanged, or call `scipy.signal.savgol_filter` with the recorded window
length and polynomial order.  Python integers are modelled by `ℤ`. -/
inductive SavgolAction where
  | unchanged : SavgolAction
  | filtered (window polyorder : ℤ) : SavgolAction
deriving DecidableEq, Repr

/-- The tail of `savgol_smoothing` after the length clamp: force the
window odd (`window_length += 1` if even), clamp `polyorder` to
`window_length - 1`, and call `savgol_filter`. -/
def savgolCall (window_length polyorder : ℤ) : SavgolAction :=
  let wl := if window_length % 2 = 0 then window_length + 1 else window_length
  SavgolAction.filtered wl (min polyorder (wl - 1))

/-- Control flow of `DataProcessor.savgol_smoothing` on a trace of length
`n`: if `n < window_length`, clamp the window to `n` (odd) or `n - 1`
(even) and return the input unchanged when the clamped window is `< 3`;
otherwise fall through to `savgolCall`. -/
def savgol_smoothing (n : ℕ) (window_length polyorder : ℤ) : SavgolAction :=
  if (n : ℤ) < window_length then
    let wl := if n % 2 = 1 then (n : ℤ) else (n : ℤ) - 1
    if wl < 3 then SavgolAction.unchanged
    else savgolCall wl polyorder
  else savgolCall window_length polyorder

/-! ### Peak profile (`PeakProfile`, half_auto_fitting_dpg.py lines 111-133) -/

/-- The function `PeakProfile.pseudo_voigt`:
`amplitude * (eta * lorentzian + (1 - eta) * gaussian)` with
`gaussian = exp(-(x-center)^2 / (2 sigma^2))` and
`lorentzian = gamma^2 / ((x-center)^2 + gamma^2)`.
The real exponential `np.exp` is passed in as `expf`. -/
def pseudo_voigt (expf : ℚ → ℚ) (x amplitude center sigma gamma eta : ℚ) : ℚ :=
  let gaussian := expf (-((x - center) ^ 2) / (2 * sigma ^ 2))
  let lorentzian := gamma ^ 2 / ((x - center) ^ 2 + gamma ^ 2)
  amplitude * (eta * lorentzian + (1 - eta) * gaussian)

/-- The function `PeakProfile.calculate_fwhm`: linear blend of the Lorentzian and
Gaussian widths, `eta * (2 gamma) + (1 - eta) * (2.355 sigma)`. -/
def calculate_fwhm (sigma gamma eta : ℚ) : ℚ :=
  let fwhm_g := 2.355 * sigma
  let fwhm_l := 2 * gamma
  eta * fwhm_l + (1 - eta) * fwhm_g

/-! ### Per-peak batch fitting loop
(`PeakFittingGUI.fit_peaks`, half_auto_fitting_dpg.py lines 740-804) -/

/-- The five pseudo-Voigt parameters handled by the optimizer. -/
structure PVParams where
  amplitude : ℚ
  center : ℚ
  sigma : ℚ
  gamma : ℚ
  eta : ℚ
deriving DecidableEq, Repr

/-- Fate of one candidate in the `fit_peaks` loop: `fitted popt`
(parameters appended to `self.fitted_params` and a result block printed),
`failed` (`curve_fit` raised; the text "Fit failed" is printed for this
peak), or `skipped` (fewer than 5 samples in the window: bare `continue`,
nothing recorded at all). -/
inductive PeakOutcome where
  | fitted (popt : PVParams) : PeakOutcome
  | failed : PeakOutcome
  | skipped : PeakOutcome
deriving DecidableEq, Repr

/-- The bounds `fit_peaks` passes to `curve_fit`:
`([0, center-window, 0, 0, 0], [inf, center+window, window, window, 1])`
(no upper bound on the amplitude). -/
def pvInBounds (center window : ℚ) (p : PVParams) : Prop :=
  0 ≤ p.amplitude ∧
  center - window ≤ p.center ∧ p.center ≤ center + window ∧
  0 ≤ p.sigma ∧ p.sigma ≤ window ∧
  0 ≤ p.gamma ∧ p.gamma ≤ window ∧
  0 ≤ p.eta ∧ p.eta ≤ 1

instance (center window : ℚ) (p : PVParams) : Decidable (pvInBounds center window p) := by
  unfold pvInBounds; infer_instance

/-- The lookup `np.argmin(np.abs(x_current - peak_x))` followed by `y_current[idx]`:
the sample whose x is nearest to `px` (first one on ties, as `argmin`).
The source indexes an array it has already checked to be loaded; the
empty-trace default is never reached in the claims below. -/
def nearestSample (trace : List (ℚ × ℚ)) (px : ℚ) : ℚ × ℚ :=
  trace.foldl (fun best s => if |s.1 - px| < |best.1 - px| then s else best)
    (trace.headD (0, 0))

/-- The fit window `mask = np.abs(x_current - center) < window` applied to
the (x, y) samples. -/
def windowSamples (trace : List (ℚ × ℚ)) (center window : ℚ) : List (ℚ × ℚ) :=
  trace.filter (fun s => |s.1 - center| < window)

/-- The fixed half window `window = 3.0` of `fit_peaks`. -/
def fitHalfWindow : ℚ := 3.0

/-- An abstract `scipy.optimize.curve_fit` call: given the windowed
samples, the seed `p0` and the `center`/`window` that determine the
bounds arrays, it returns `some popt` on success and `none` when it
raises (the bare `except` branch of the source). -/
def CurveFit : Type := List (ℚ × ℚ) → PVParams → ℚ → ℚ → Option PVParams

/-- Body of the `for i, peak_x in enumerate(self.peak_positions)` loop of
`fit_peaks`: seed `(amplitude = y[nearest idx], center = peak_x,
sigma = gamma = 0.1, eta = 0.5)`, restrict to the window, `continue`
when fewer than 5 samples remain, otherwise run `curve_fit` inside
`try/except`. -/
def fitPeakStep (cf : CurveFit) (trace : List (ℚ × ℚ)) (peak_x : ℚ) : PeakOutcome :=
  let amplitude := (nearestSample trace peak_x).2
  let p0 : PVParams := ⟨amplitude, peak_x, 0.1, 0.1, 0.5⟩
  let win := windowSamples trace peak_x fitHalfWindow
  if win.length < 5 then PeakOutcome.skipped
  else
    match cf win p0 peak_x fitHalfWindow with
    | some popt => PeakOutcome.fitted popt
    | none => PeakOutcome.failed

/-- The whole `fit_peaks` batch loop: every candidate is processed and
no outcome can abort the remaining iterations. -/
def fit_peaks (cf : CurveFit) (trace : List (ℚ × ℚ)) (peaks : List ℚ) :
    List PeakOutcome :=
  peaks.map (fitPeakStep cf trace)

/-- The list `self.fitted_params` after the loop: the successfully fitted
parameter vectors, in candidate order. -/
def fittedParams (outcomes : List PeakOutcome) : List PVParams :=
  outcomes.filterMap (fun o => match o with
    | PeakOutcome.fitted p => some p
    | _ => none)

/-- Number of "Fit failed" blocks printed to the results text. -/
def failureReports (outcomes : List PeakOutcome) : ℕ :=
  (outcomes.filter (fun o => o = PeakOutcome.failed)).length

/-! ### Automatic peak detection
(`PeakDetector.auto_find_peaks`, half_auto_fitting_dpg.py lines 139-171) -/

/-- The reduction `np.max` over a list (the traces handled by the GUI are nonempty). -/
def listMax (l : List ℚ) : ℚ := l.foldl max (l.headD 0)

/-- The reduction `np.min` over a list. -/
def listMin (l : List ℚ) : ℚ := l.foldl min (l.headD 0)

/-- The method `PeakDetector.auto_find_peaks`: smooth with `gaussian_filter1d`
(abstracted as `smooth`), compute
`prominence = (max(y_smooth) - min(y_smooth)) * 0.05`, call
`scipy.signal.find_peaks` (abstracted as `fp`, returning peak indices)
with that prominence and `distance = 5`, and convert the indices to x
positions by `x[peaks]`. -/
def auto_find_peaks (smooth : List ℚ → List ℚ)
    (fp : List ℚ → ℚ → ℕ → List ℕ) (x y : List ℚ) : List ℚ :=
  let y_smooth := smooth y
  let prominence := (listMax y_smooth - listMin y_smooth) * 0.05
  let peaks := fp y_smooth prominence 5
  peaks.map (fun i => x.getD i 0)

/-! ### Background subtraction
(`PeakFittingGUI.subtract_background`, half_auto_fitting_dpg.py lines 614-648) -/

/-- How a `subtract_background` call ends: `warned` (no background points
selected — warning dialog, nothing touched), `errored` (the `try` block
raised, the `except` branch showed an error dialog and `y_current` was
left untouched, since `UnivariateSpline` construction precedes the
subtraction), or `subtracted` (spline evaluated, subtracted and clamped). -/
inductive BgStatus where
  | warned : BgStatus
  | errored : BgStatus
  | subtracted : BgStatus
deriving DecidableEq, Repr

/-- Insert one anchor into a list already sorted by x. -/
def insertByX (p : ℚ × ℚ) : List (ℚ × ℚ) → List (ℚ × ℚ)
  | [] => [p]
  | q :: rest => if p.1 ≤ q.1 then p :: q :: rest else q :: insertByX p rest

/-- The `np.argsort(bg_x)` reordering of the anchors by x. -/
def sortAnchors : List (ℚ × ℚ) → List (ℚ × ℚ)
  | [] => []
  | p :: rest => insertByX p (sortAnchors rest)

/-- An abstract `UnivariateSpline(bg_x, bg_y, k=3, s=None)` constructor:
`some f` when construction succeeds (with `f` the fitted spline,
evaluated at every trace x), `none` when scipy raises.  scipy's fitpack
requires strictly more data points than the spline degree
(`m > k = 3`), so construction always raises on fewer than 4 anchors —
that contract is taken as a hypothesis where a theorem needs it. -/
def SplineBuild : Type := List (ℚ × ℚ) → Option (ℚ → ℚ)

/-- The method `PeakFittingGUI.subtract_background` as a function of the selected
background points and the current trace `(x, y)`: guard on empty
`bg_points`, sort the anchors by x, build the spline, evaluate it at
every trace x, subtract, and clamp the result to `≥ 0`
(`np.maximum(y_current - bg_interp, 0)`).  Returns the way the call
ended together with the new `y_current`. -/
def subtract_background (build : SplineBuild) (bg_points : List (ℚ × ℚ))
    (x y : List ℚ) : BgStatus × List ℚ :=
  if bg_points.isEmpty then (BgStatus.warned, y)
  else
    match build (sortAnchors bg_points) with
    | none => (BgStatus.errored, y)
    | some f => (BgStatus.subtracted, List.zipWith (fun yi xi => max (yi - f xi) 0) y x)

/-! ### EoS data model and multi-strategy retry controller
(`interactive_eos_gui_dpg.py`) -/

/-- The `EoSParameters` value object: `V0`, `B0`, `B0_prime`. -/
structure EoSParams where
  V0 : ℚ
  B0 : ℚ
  B0_prime : ℚ
deriving DecidableEq, Repr

/-- The result object returned by `CrysFMLEoS.fit` as consumed by the
DPG GUI: a `success` flag, the fitted parameters and the `rms` residual. -/
structure FitResult where
  success : Bool
  params : EoSParams
  rms : ℚ
deriving DecidableEq, Repr

/-- An abstract `self.fitter.fit` call (one full independent bounded
least-squares attempt, no locking), as invoked by
`fit_multiple_strategies`. -/
def EosFit : Type := EoSParams → FitResult

/-- The fixed seed list of `fit_multiple_strategies`
(interactive_eos_gui_dpg.py lines 610-629): strategy 1 the current
manual parameters, strategy 2 the default `(V_data[0], 130.0, 4.0)`,
strategy 3 the sweep `B0 ∈ [100.0, 150.0, 200.0]` with `V0 = V_data[0]`
and `B0_prime = 4.0`. -/
def strategySeeds (v0 : ℚ) (current : EoSParams) : List EoSParams :=
  [current,
   ⟨v0, 130.0, 4.0⟩,
   ⟨v0, 100.0, 4.0⟩,
   ⟨v0, 150.0, 4.0⟩,
   ⟨v0, 200.0, 4.0⟩]

/-- One comparison step of the retry controller:
`if result.success and result.rms < best_rms`, where `best_rms` starts
at `float('inf')` (so against `none` only success matters). -/
def betterResult (best : Option FitResult) (r : FitResult) : Option FitResult :=
  match best with
  | none => if r.success then some r else none
  | some b => if r.success ∧ r.rms < b.rms then some r else some b

/-- The `InteractiveEoSGUI.fit_multiple_strategies` loop reduced to its
decision core: run every strategy seed through the fitter and keep the
best successful result (`best_result` stays `None` when every attempt
fails, in which case the GUI warns and leaves the manual parameters
untouched). -/
def fit_multiple_strategies (fit : EosFit) (v0 : ℚ) (current : EoSParams) :
    Option FitResult :=
  (strategySeeds v0 current).foldl (fun best seed => betterResult best (fit seed)) none

/-! ### Lock flags and the lock-aware fit
(`fit_unlocked`, interactive_eos_gui_dpg.py lines 521-594;
`CrysFMLEoS.fit` itself lives in `crysfml_eos_module.py`) -/

/-- The dict `self.param_locks`: one boolean per EoS parameter, `true` = held
fixed during optimization. -/
structure LockFlags where
  V0 : Bool
  B0 : Bool
  B0_prime : Bool
deriving DecidableEq, Repr

/-- Modelled from the spec: `CrysFMLEoS.fit` with lock flags — the
module `crysfml_eos_module.py` that defines it is not part of the
sources, only its callers are.  Spec §4.5 step 2: partition the
parameters into free/fixed sets per the lock flags and minimize over the
free parameters only, "fixed parameters retain their input value
verbatim".  The optimizer run on the free sub-vector is abstract
(`opt`); the assembled result takes the optimizer's values for the free
parameters and the input values for the locked ones. -/
def crysfml_fit (opt : EoSParams → LockFlags → FitResult)
    (initial : EoSParams) (locks : LockFlags) : FitResult :=
  let r := opt initial locks
  { success := r.success
    params :=
      ⟨if locks.V0 then initial.V0 else r.params.V0,
       if locks.B0 then initial.B0 else r.params.B0,
       if locks.B0_prime then initial.B0_prime else r.params.B0_prime⟩
    rms := r.rms }

/-- The parameter-store update of `InteractiveEoSGUI.fit_unlocked`
(interactive_eos_gui_dpg.py lines 548-558): after a successful fit only
the unlocked entries of `self.param_values` are overwritten
(`if free_params[key]: ...`); locked entries are untouched no matter
what the fitter returned.  On failure nothing is written. -/
def fit_unlocked_update (locks : LockFlags) (vals : EoSParams) (r : FitResult) :
    EoSParams :=
  if r.success then
    ⟨if locks.V0 then vals.V0 else r.params.V0,
     if locks.B0 then vals.B0 else r.params.B0,
     if locks.B0_prime then vals.B0_prime else r.params.B0_prime⟩
  else vals

/-- The method `InteractiveEoSGUI.fit_unlocked`: guard against all parameters being
locked (warning dialog, no fit), otherwise run the lock-aware fit and
apply the selective update to the session parameters. -/
def fit_unlocked (fitimpl : EoSParams → LockFlags → FitResult)
    (locks : LockFlags) (vals : EoSParams) : EoSParams :=
  if locks.V0 ∧ locks.B0 ∧ locks.B0_prime then vals
  else fit_unlocked_update locks vals (fitimpl vals locks)

/-! ### EoS model switching
(`on_eos_changed`, interactive_eos_gui_dpg.py lines 347-366 and
interactive_eos_gui.py lines 363-380) -/

/-- The six EoS model families selectable in the GUIs. -/
inductive EoSTy where
  | bm2 : EoSTy
  | bm3 : EoSTy
  | bm4 : EoSTy
  | murnaghan : EoSTy
  | vinet : EoSTy
  | naturalStrain : EoSTy
deriving DecidableEq, Repr

/-- The `eos_map` dictionary of both `on_eos_changed` handlers, with its
`BIRCH_MURNAGHAN_3RD` default for unknown labels. -/
def eos_map (s : String) : EoSTy :=
  if s = "Birch-Murnaghan 2nd" then EoSTy.bm2
  else if s = "Birch-Murnaghan 3rd" then EoSTy.bm3
  else if s = "Birch-Murnaghan 4th" then EoSTy.bm4
  else if s = "Murnaghan" then EoSTy.murnaghan
  else if s = "Vinet" then EoSTy.vinet
  else if s = "Natural Strain" then EoSTy.naturalStrain
  else EoSTy.bm3

/-- The slice of the interactive EoS session state that the model-switch
handlers read and write: the EoS type the fitter is bound to, the three
`param_values`, and the loaded volume data (`[]` = no data loaded). -/
structure EosSession where
  eosType : EoSTy
  vals : EoSParams
  vData : List ℚ
deriving DecidableEq, Repr

/-- The method `InteractiveEoSGUI.reset_parameters` of the DPG GUI
(interactive_eos_gui_dpg.py lines 379-405): overwrite the parameter
values with `V0 = V_data[0]`, `B0 = 130.0`, `B0_prime = 4.0`. -/
def dpg_reset_parameters (st : EosSession) : EosSession :=
  { st with vals := ⟨st.vData.headD 0, 130.0, 4.0⟩ }

/-- The handler `on_eos_changed` of the DPG GUI (interactive_eos_gui_dpg.py lines
347-366): map the combo label to the EoS type, and — when data is
loaded — re-create the fitter bound to the new type and call
`self.reset_parameters()`. -/
def dpg_on_eos_changed (app_data : String) (st : EosSession) : EosSession :=
  let t := eos_map app_data
  if st.vData.isEmpty then { st with eosType := t }
  else dpg_reset_parameters { st with eosType := t }

/-- The handler `on_eos_changed` of the Tkinter GUI (interactive_eos_gui.py lines
363-380): re-create the fitter bound to the new type and keep the
parameter variables ("Don't reset parameters when switching models -
keep current values"). -/
def tk_on_eos_changed (label : String) (st : EosSession) : EosSession :=
  { st with eosType := eos_map label }

/-! ### Specification predicates and concrete fixtures -/

/-- What the retry controller's accumulator means after the listed seeds
have been attempted: `none` iff every listed attempt failed; `some r`
carries a successful attempt whose rms is minimal among the successful
listed attempts. -/
def BestSpec (fit : EosFit) (seeds : List EoSParams) : Option FitResult → Prop
  | none => ∀ s ∈ seeds, (fit s).success = false
  | some r => r.success = true ∧ (∃ s ∈ seeds, fit s = r) ∧
      ∀ s ∈ seeds, (fit s).success = true → r.rms ≤ (fit s).rms

/-- A concrete fitter for evaluating the retry controller: always
succeeds and reports the seed's `B0` as the residual. -/
def fmsFitW : EosFit := fun p => ⟨true, p, p.B0⟩

/-- A concrete `curve_fit` stand-in that always converges and returns
its seed unchanged. -/
def cfAlwaysSeed : CurveFit := fun _ p0 _ _ => some p0

/-- A concrete `curve_fit` stand-in that honours its bound arrays: it
returns a zero-width peak pinned at the candidate center. -/
def cfBounded : CurveFit := fun _ _ c w =>
  if 0 ≤ w then some ⟨0, c, 0, 0, 0⟩ else none

/-- A concrete trace: five samples bunched around x = 2 and one isolated
sample at x = 20 (so a ±3 window around 20 holds a single sample). -/
def exTrace : List (ℚ × ℚ) :=
  [(0, 1), (1, 2), (2, 3), (3, 2), (4, 1), (20, 5)]

/-- A concrete spline constructor honouring the fitpack arity contract:
construction fails below 4 anchors, otherwise the zero spline. -/
def buildW : SplineBuild := fun a =>
  if a.length < 4 then none else some (fun _ => 0)

/-- A concrete peak-index oracle: indices 1 and 3 on length-5 input. -/
def fpW : List ℚ → ℚ → ℕ → List ℕ := fun ys _ _ =>
  if ys.length = 5 then [1, 3] else []

/-! ### Theorems -/

/-- C9: for every amplitude and center, sigma > 0, gamma > 0 and
eta ∈ [0, 1], the pseudo-Voigt profile evaluates to exactly the
amplitude at x = center: both the Lorentzian factor (gamma² / gamma²)
and the Gaussian factor (exp 0) equal 1 there, so the amplitude is the
peak height.  `expf 0 = 1` is the only fact about the exponential the
identity needs. -/
theorem pseudo_voigt_center (expf : ℚ → ℚ) (hexp : expf 0 = 1)
    (amplitude center sigma gamma eta : ℚ)
    (hsigma : 0 < sigma) (hgamma : 0 < gamma)
    (heta0 : 0 ≤ eta) (heta1 : eta ≤ 1) :
    pseudo_voigt expf center amplitude center sigma gamma eta = amplitude := by
  have hg2 : gamma ^ 2 ≠ 0 := pow_ne_zero 2 hgamma.ne'
  unfold pseudo_voigt
  rw [sub_self]
  norm_num [hexp, div_self hg2]

/-- C9 witness: a concrete evaluation of the identity at amplitude 2,
center 5, sigma = gamma = 1, eta = 0.5. -/
theorem pseudo_voigt_center_witness :
    pseudo_voigt (fun _ => 1) 5 2 5 1 1 0.5 = 2 :=
  pseudo_voigt_center (fun _ => 1) rfl 2 5 1 1 0.5 (by norm_num) (by norm_num)
    (by norm_num) (by norm_num)

/-- C4: refutation by evaluation.  On a trace of length 4 with requested
window 4 the clamp branch is skipped (4 < 4 is false) and the force-odd
step bumps the window to 5, so savgol_filter is invoked with window 5 on
a length-4 trace — the window actually used exceeds len(trace),
contradicting the claimed invariant (scipy then raises ValueError
instead of smoothing). -/
theorem savgol_window_exceeds_length :
    savgol_smoothing 4 4 3 = SavgolAction.filtered 5 3 ∧ ¬((5 : ℤ) ≤ 4) := by
  constructor
  · rfl
  · decide

/-- C8: refutation by evaluation.  In the DPG GUI, switching the EoS
model with data loaded calls reset_parameters: a session holding
V_data = [10, 9, 8] and manual parameters (11.5, 140, 3.5) comes out of
on_eos_changed with parameters (10, 130, 4) — a reset — whereas the
Tkinter handler preserves (11.5, 140, 3.5) exactly as the claim states. -/
theorem dpg_eos_switch_resets_parameters :
    dpg_on_eos_changed ("Vinet")
        { eosType := EoSTy.bm3, vals := ⟨11.5, 140, 3.5⟩, vData := [10, 9, 8] }
      = { eosType := EoSTy.vinet, vals := ⟨10, 130, 4⟩, vData := [10, 9, 8] } ∧
    tk_on_eos_changed ("Vinet")
        { eosType := EoSTy.bm3, vals := ⟨11.5, 140, 3.5⟩, vData := [10, 9, 8] }
      = { eosType := EoSTy.vinet, vals := ⟨11.5, 140, 3.5⟩, vData := [10, 9, 8] } ∧
    (⟨10, 130, 4⟩ : EoSParams) ≠ ⟨11.5, 140, 3.5⟩ := by
  refine ⟨?_, ?_, ?_⟩ <;>
    simp [dpg_on_eos_changed, dpg_reset_parameters, tk_on_eos_changed, eos_map,
      EoSParams.mk.injEq, EosSession.mk.injEq] <;>
    norm_num

/-- C7: lock respect.  With the V0 lock set, the lock-aware fit
assembles its result with the input V0 verbatim (V0 is never handed to
the optimizer), for every optimizer behaviour; and the fit_unlocked
session update never overwrites the stored V0, whatever the fitter
returns. -/
theorem lock_respect_V0 (locks : LockFlags) (hV : locks.V0 = true) :
    (∀ (opt : EoSParams → LockFlags → FitResult) (initial : EoSParams),
      (crysfml_fit opt initial locks).params.V0 = initial.V0) ∧
    (∀ (fitimpl : EoSParams → LockFlags → FitResult) (vals : EoSParams),
      (fit_unlocked fitimpl locks vals).V0 = vals.V0) := by
  constructor
  · intro opt initial
    simp [crysfml_fit, hV]
  · intro fitimpl vals
    unfold fit_unlocked fit_unlocked_update
    split
    · rfl
    · split
      · simp [hV]
      · rfl

/-- C7 witness: V0 locked at 11.5 while the optimizer tries to move
everything to (99, 88, 7); both the fit result and the session keep
V0 = 11.5 bit-for-bit. -/
theorem lock_respect_V0_witness :
    (crysfml_fit (fun _ _ => ⟨true, ⟨99, 88, 7⟩, 1⟩) ⟨11.5, 130, 4⟩
      ⟨true, false, false⟩).params.V0 = 11.5 ∧
    (fit_unlocked (fun _ _ => ⟨true, ⟨99, 88, 7⟩, 1⟩) ⟨true, false, false⟩
      ⟨11.5, 130, 4⟩).V0 = 11.5 :=
  ⟨(lock_respect_V0 ⟨true, false, false⟩ rfl).1 _ _,
   (lock_respect_V0 ⟨true, false, false⟩ rfl).2 _ _⟩

/-- Inserting one anchor grows the sorted list by one. -/
theorem insertByX_length (p : ℚ × ℚ) (l : List (ℚ × ℚ)) :
    (insertByX p l).length = l.length + 1 := by
  induction l with
  | nil => rfl
  | cons q rest ih =>
    unfold insertByX
    split
    · rfl
    · simp [List.length_cons, ih]

/-- Sorting the anchors by x preserves how many there are. -/
theorem sortAnchors_length (l : List (ℚ × ℚ)) :
    (sortAnchors l).length = l.length := by
  induction l with
  | nil => rfl
  | cons p rest ih =>
    unfold sortAnchors
    rw [insertByX_length, ih, List.length_cons]

/-- Every entry produced by the subtract-and-clamp step is nonnegative. -/
theorem zipWith_clamp_nonneg (f : ℚ → ℚ) :
    ∀ (y x : List ℚ) (v : ℚ),
      v ∈ List.zipWith (fun yi xi => max (yi - f xi) 0) y x → 0 ≤ v := by
  intro y
  induction y with
  | nil => intro x v hv; simp at hv
  | cons a t ih =>
    intro x v hv
    cases x with
    | nil => simp at hv
    | cons b s =>
      rw [List.zipWith_cons_cons, List.mem_cons] at hv
      rcases hv with hv | hv
      · rw [hv]; exact le_max_right _ _
      · exact ih s v hv

/-- A trace that is pointwise nonnegative stays pointwise nonnegative
through any further subtract_background call, whichever way it ends. -/
theorem subtract_background_preserves_nonneg (build : SplineBuild)
    (bg : List (ℚ × ℚ)) (x y : List ℚ) (h : ∀ v ∈ y, 0 ≤ v) :
    ∀ v ∈ (subtract_background build bg x y).2, 0 ≤ v := by
  unfold subtract_background
  split
  · exact h
  · intro v hv
    split at hv
    · exact h v hv
    · exact zipWith_clamp_nonneg _ y x v hv

/-- C5: with fewer than 4 background anchors the degree-3 spline
construction raises (fitpack requires more points than the spline
degree), the exception is caught at the operation boundary — or, with no
anchors at all, only a warning dialog is shown — so the trace is left
unchanged, no subtraction is performed, and the caller continues. -/
theorem subtract_background_insufficient (build : SplineBuild)
    (hbuild : ∀ a : List (ℚ × ℚ), a.length < 4 → build a = none)
    (bg : List (ℚ × ℚ)) (x y : List ℚ) (hbg : bg.length < 4) :
    (subtract_background build bg x y).2 = y ∧
    (subtract_background build bg x y).1 ≠ BgStatus.subtracted := by
  have hnone : build (sortAnchors bg) = none := by
    apply hbuild
    rw [sortAnchors_length]
    exact hbg
  unfold subtract_background
  split
  · exact ⟨rfl, by simp⟩
  · rw [hnone]
    exact ⟨rfl, by simp⟩

/-- C5 witness: two anchors on a two-point trace — the call warns or
errors, the intensities [5, 6] survive untouched. -/
theorem subtract_background_insufficient_witness :
    (subtract_background buildW [(1, 2), (2, 1)] [0, 1] [5, 6]).2 = [5, 6] ∧
    (subtract_background buildW [(1, 2), (2, 1)] [0, 1] [5, 6]).1 ≠ BgStatus.subtracted :=
  subtract_background_insufficient buildW
    (by intro a ha; simp [buildW, ha]) [(1, 2), (2, 1)] [0, 1] [5, 6] (by norm_num)

/-- C6: clamp stability — when the spline construction succeeds on at
least 4 anchors, one subtract_background application leaves every
intensity ≥ 0, and a second application on the result (same or
re-derived anchors, any spline) again leaves every intensity ≥ 0. -/
theorem subtract_background_nonneg (build : SplineBuild) (bg : List (ℚ × ℚ))
    (x y : List ℚ) (f : ℚ → ℚ) (hbg : 4 ≤ bg.length)
    (hbuild : build (sortAnchors bg) = some f) :
    (∀ v ∈ (subtract_background build bg x y).2, 0 ≤ v) ∧
    (∀ (build' : SplineBuild) (bg' : List (ℚ × ℚ)),
      ∀ v ∈ (subtract_background build' bg' x (subtract_background build bg x y).2).2,
        0 ≤ v) := by
  have h1 : ∀ v ∈ (subtract_background build bg x y).2, 0 ≤ v := by
    unfold subtract_background
    split
    · rename_i hemp
      rw [List.isEmpty_iff] at hemp
      rw [hemp] at hbg
      simp at hbg
    · rw [hbuild]
      exact fun v hv => zipWith_clamp_nonneg f y x v hv
  exact ⟨h1, fun build' bg' =>
    subtract_background_preserves_nonneg build' bg' x _ h1⟩

/-- C6 witness: four anchors, a trace whose intensities start at
[-2, 5]; the first entry of the subtracted-and-clamped trace is
nonnegative, and stays so through a second application. -/
theorem subtract_background_nonneg_witness :
    4 ≤ ([((1:ℚ), (0:ℚ)), (2, 0), (3, 0), (4, 0)] : List (ℚ × ℚ)).length ∧
    0 ≤ ((subtract_background buildW [((1:ℚ), (0:ℚ)), (2, 0), (3, 0), (4, 0)]
          [0, 1] [-2, 5]).2.getD 0 0) ∧
    0 ≤ ((subtract_background buildW [((1:ℚ), (0:ℚ)), (2, 0), (3, 0), (4, 0)] [0, 1]
          ((subtract_background buildW [((1:ℚ), (0:ℚ)), (2, 0), (3, 0), (4, 0)]
            [0, 1] [-2, 5]).2)).2.getD 0 0) := by
  have hb : buildW (sortAnchors [((1:ℚ), (0:ℚ)), (2, 0), (3, 0), (4, 0)])
      = some (fun _ => 0) := by
    norm_num [buildW, sortAnchors, insertByX]
  have h := subtract_background_nonneg buildW
    [((1:ℚ), (0:ℚ)), (2, 0), (3, 0), (4, 0)] [0, 1] [-2, 5] (fun _ => 0)
    (by norm_num) hb
  have hres : (subtract_background buildW [((1:ℚ), (0:ℚ)), (2, 0), (3, 0), (4, 0)]
      [0, 1] [-2, 5]).2 = [0, 5] := by
    norm_num [subtract_background, buildW, sortAnchors, insertByX, max_def]
  have hres2 : (subtract_background buildW [((1:ℚ), (0:ℚ)), (2, 0), (3, 0), (4, 0)]
      [0, 1] [0, 5]).2 = [0, 5] := by
    norm_num [subtract_background, buildW, sortAnchors, insertByX, max_def]
  refine ⟨by norm_num, h.1 _ ?_, ?_⟩
  · rw [hres]
    norm_num
  · apply h.2 buildW [((1:ℚ), (0:ℚ)), (2, 0), (3, 0), (4, 0)]
    rw [hres, hres2]
    norm_num

/-- C3: bounds satisfaction.  Under the contract of the bounded
least-squares optimizer — an optimum returned by curve_fit lies inside
the bound arrays it was given — every successfully fitted parameter
vector of the fit_peaks batch satisfies amplitude ≥ 0,
|center − candidate_x| ≤ half_window, sigma ∈ [0, half_window],
gamma ∈ [0, half_window] and eta ∈ [0, 1], with half_window the fixed
3.0 of the source. -/
theorem fit_peaks_bounds (cf : CurveFit)
    (hcf : ∀ win p0 c w popt, cf win p0 c w = some popt → pvInBounds c w popt)
    (trace : List (ℚ × ℚ)) (peaks : List ℚ) (i : ℕ) (popt : PVParams)
    (hi : (fit_peaks cf trace peaks).get? i = some (PeakOutcome.fitted popt)) :
    ∃ px, peaks.get? i = some px ∧
      0 ≤ popt.amplitude ∧ |popt.center - px| ≤ fitHalfWindow ∧
      0 ≤ popt.sigma ∧ popt.sigma ≤ fitHalfWindow ∧
      0 ≤ popt.gamma ∧ popt.gamma ≤ fitHalfWindow ∧
      0 ≤ popt.eta ∧ popt.eta ≤ 1 := by
  rw [fit_peaks, List.get?_map] at hi
  cases hpk : peaks.get? i with
  | none => rw [hpk] at hi; simp at hi
  | some px =>
    rw [hpk] at hi
    simp only [Option.map_some'] at hi
    injection hi with hstep
    refine ⟨px, rfl, ?_⟩
    simp only [fitPeakStep] at hstep
    split at hstep
    · exact absurd hstep (by simp)
    · cases hcall : cf (windowSamples trace px fitHalfWindow)
        ⟨(nearestSample trace px).2, px, 0.1, 0.1, 0.5⟩ px fitHalfWindow with
      | none => rw [hcall] at hstep; exact absurd hstep (by simp)
      | some q =>
        rw [hcall] at hstep
        injection hstep with hq
        obtain ⟨h1, h2, h3, h4, h5, h6, h7, h8, h9⟩ := hcf _ _ _ _ q hcall
        subst hq
        refine ⟨h1, ?_, h4, h5, h6, h7, h8, h9⟩
        rw [abs_le]
        constructor <;> linarith

/-- C3 witness: a five-sample trace with one candidate at x = 2; the
bound-respecting optimizer pins the fit at the candidate center, and
the returned parameters satisfy every declared bound. -/
theorem fit_peaks_bounds_witness :
    |(PVParams.mk 0 2 0 0 0).center - 2| ≤ fitHalfWindow ∧
    0 ≤ (PVParams.mk 0 2 0 0 0).amplitude ∧
    0 ≤ (PVParams.mk 0 2 0 0 0).eta ∧ (PVParams.mk 0 2 0 0 0).eta ≤ 1 := by
  have hcontract : ∀ win p0 c w popt, cfBounded win p0 c w = some popt →
      pvInBounds c w popt := by
    intro win p0 c w popt h
    unfold cfBounded at h
    split at h
    · injection h with h
      subst h
      rename_i hw
      exact ⟨le_refl 0, by linarith, by linarith, le_refl 0, hw,
        le_refl 0, hw, le_refl 0, by norm_num⟩
    · exact absurd h (by simp)
  have heval : (fit_peaks cfBounded [(0, 1), (1, 2), (2, 3), (3, 2), (4, 1)] [2]).get? 0
      = some (PeakOutcome.fitted ⟨0, 2, 0, 0, 0⟩) := by
    norm_num [fit_peaks, fitPeakStep, windowSamples, nearestSample, cfBounded,
      fitHalfWindow]
  obtain ⟨px, hpx, hb⟩ := fit_peaks_bounds cfBounded hcontract
    [(0, 1), (1, 2), (2, 3), (3, 2), (4, 1)] [2] 0 ⟨0, 2, 0, 0, 0⟩ heval
  have hpx2 : px = 2 := by
    simp [List.get?] at hpx
    exact hpx.symm
  subst hpx2
  exact ⟨hb.2.1, hb.1, hb.2.2.2.2.2.2⟩

/-- A run of candidates that all have full windows and convergent
optimizer calls contributes one fitted result each and no failure
report. -/
theorem fitPeaks_run_all_fitted (cf : CurveFit) (trace : List (ℚ × ℚ)) :
    ∀ l : List ℚ,
      (∀ q ∈ l, ¬(windowSamples trace q fitHalfWindow).length < 5 ∧
        ∀ p0, (cf (windowSamples trace q fitHalfWindow) p0 q fitHalfWindow).isSome = true) →
      (fittedParams (l.map (fitPeakStep cf trace))).length = l.length ∧
      failureReports (l.map (fitPeakStep cf trace)) = 0 := by
  intro l
  induction l with
  | nil => intro _; exact ⟨rfl, rfl⟩
  | cons q t ih =>
    intro h
    have hq := h q (List.mem_cons_self q t)
    have ht := ih (fun r hr => h r (List.mem_cons_of_mem q hr))
    have hsome := hq.2 ⟨(nearestSample trace q).2, q, 0.1, 0.1, 0.5⟩
    rw [Option.isSome_iff_exists] at hsome
    obtain ⟨popt, hcall⟩ := hsome
    have hstep : fitPeakStep cf trace q = PeakOutcome.fitted popt := by
      simp only [fitPeakStep]
      rw [if_neg hq.1, hcall]
    rw [List.map_cons, hstep]
    constructor
    · simp only [fittedParams, List.filterMap_cons, List.length_cons]
      rw [← ht.1]
      rfl
    · simp only [failureReports, List.filter_cons]
      have : ¬(PeakOutcome.fitted popt = PeakOutcome.failed) := by simp
      simp only [this, decide_False, decide_eq_true_eq, if_false]
      exact ht.2

/-- C2 counterexample: with a batch of two candidates where the second
(at x = 20) has a single sample inside its ±3 window and the optimizer
converges on everything it is given, the loop silently skips the
under-sampled candidate — zero failure blocks are recorded (the claim
demands the candidate be reported as a failure) even though the other
candidate yields the expected N − 1 = 1 successful results. -/
theorem fit_peaks_skip_unreported :
    fit_peaks cfAlwaysSeed exTrace [2, 20]
      = [PeakOutcome.fitted ⟨3, 2, 0.1, 0.1, 0.5⟩, PeakOutcome.skipped] ∧
    failureReports (fit_peaks cfAlwaysSeed exTrace [2, 20]) = 0 ∧
    (fittedParams (fit_peaks cfAlwaysSeed exTrace [2, 20])).length = 1 := by
  have he : fit_peaks cfAlwaysSeed exTrace [2, 20]
      = [PeakOutcome.fitted ⟨3, 2, 0.1, 0.1, 0.5⟩, PeakOutcome.skipped] := by
    norm_num [fit_peaks, fitPeakStep, nearestSample, windowSamples, cfAlwaysSeed,
      exTrace, fitHalfWindow]
  rw [he]
  exact ⟨rfl, rfl, rfl⟩

/-- C2 (amended): partial-failure isolation as the code implements it.
If candidate k (split out as pre ++ pk :: post) has fewer than 5 samples
in its ±3 window while every other candidate has a full window and a
convergent optimizer call, then the batch attempts no optimization for
candidate k and silently skips it — its outcome is `skipped`, and no
failure is recorded anywhere — while still producing exactly N − 1
successful results; the loop is total, so no exception escapes it. -/
theorem fit_peaks_failure_isolation (cf : CurveFit) (trace : List (ℚ × ℚ))
    (peaks pre post : List ℚ) (pk : ℚ)
    (hsplit : peaks = pre ++ pk :: post)
    (hshort : (windowSamples trace pk fitHalfWindow).length < 5)
    (hrest : ∀ q ∈ pre ++ post,
      ¬(windowSamples trace q fitHalfWindow).length < 5 ∧
      ∀ p0, (cf (windowSamples trace q fitHalfWindow) p0 q fitHalfWindow).isSome = true) :
    (fit_peaks cf trace peaks).get? pre.length = some PeakOutcome.skipped ∧
    (fittedParams (fit_peaks cf trace peaks)).length = peaks.length - 1 ∧
    failureReports (fit_peaks cf trace peaks) = 0 := by
  subst hsplit
  have hstepk : fitPeakStep cf trace pk = PeakOutcome.skipped := by
    simp only [fitPeakStep]
    rw [if_pos hshort]
  have hpre := fitPeaks_run_all_fitted cf trace pre
    (fun q hq => hrest q (List.mem_append_left _ hq))
  have hpost := fitPeaks_run_all_fitted cf trace post
    (fun q hq => hrest q (List.mem_append_right _ hq))
  have hmap : fit_peaks cf trace (pre ++ pk :: post)
      = pre.map (fitPeakStep cf trace)
        ++ PeakOutcome.skipped :: post.map (fitPeakStep cf trace) := by
    rw [fit_peaks, List.map_append, List.map_cons, hstepk]
  refine ⟨?_, ?_, ?_⟩
  · rw [hmap, List.get?_append_right (by simp)]
    simp
  · rw [hmap]
    simp only [fittedParams, List.filterMap_append, List.filterMap_cons,
      List.length_append, List.length_cons]
    have h1 := hpre.1
    have h2 := hpost.1
    simp only [fittedParams] at h1 h2
    rw [h1, h2]
    simp [Nat.add_comm]
  · rw [hmap]
    simp only [failureReports, List.filter_append, List.filter_cons,
      List.length_append]
    have h1 := hpre.2
    have h2 := hpost.2
    simp only [failureReports] at h1 h2
    rw [h1]
    simp [h2]

/-- C2 witness: the amended isolation property evaluated on the concrete
two-candidate batch of the counterexample. -/
theorem fit_peaks_failure_isolation_witness :
    (fit_peaks cfAlwaysSeed exTrace [2, 20]).get? 1 = some PeakOutcome.skipped ∧
    (fittedParams (fit_peaks cfAlwaysSeed exTrace [2, 20])).length = 1 ∧
    failureReports (fit_peaks cfAlwaysSeed exTrace [2, 20]) = 0 := by
  have h := fit_peaks_failure_isolation cfAlwaysSeed exTrace [2, 20] [2] [] 20 rfl
    (by norm_num [windowSamples, exTrace, fitHalfWindow])
    (by
      intro q hq
      simp at hq
      subst hq
      refine ⟨by norm_num [windowSamples, exTrace, fitHalfWindow], fun p0 => rfl⟩)
  simpa using h

/-- One comparison step of the retry controller preserves the meaning of
the accumulator. -/
theorem betterResult_step (fit : EosFit) (seen : List EoSParams) (s : EoSParams)
    (acc : Option FitResult) (hacc : BestSpec fit seen acc) :
    BestSpec fit (seen ++ [s]) (betterResult acc (fit s)) := by
  cases acc with
  | none =>
    simp only [betterResult]
    by_cases hs : (fit s).success = true
    · rw [if_pos hs]
      refine ⟨hs, ⟨s, by simp, rfl⟩, ?_⟩
      intro t ht hts
      rcases List.mem_append.mp ht with h | h
      · exact absurd hts (by simp [hacc t h])
      · simp at h
        subst h
        exact le_refl _
    · rw [if_neg hs]
      intro t ht
      rcases List.mem_append.mp ht with h | h
      · exact hacc t h
      · simp at h
        subst h
        exact Bool.eq_false_iff.mpr hs
  | some b =>
    simp only [betterResult]
    obtain ⟨hbs, ⟨t0, ht0, ht0eq⟩, hmin⟩ := hacc
    by_cases hc : (fit s).success = true ∧ (fit s).rms < b.rms
    · rw [if_pos hc]
      refine ⟨hc.1, ⟨s, by simp, rfl⟩, ?_⟩
      intro t ht hts
      rcases List.mem_append.mp ht with h | h
      · exact le_of_lt (lt_of_lt_of_le hc.2 (hmin t h hts))
      · simp at h
        subst h
        exact le_refl _
    · rw [if_neg hc]
      refine ⟨hbs, ⟨t0, List.mem_append_left _ ht0, ht0eq⟩, ?_⟩
      intro t ht hts
      rcases List.mem_append.mp ht with h | h
      · exact hmin t h hts
      · simp at h
        subst h
        by_contra hlt
        exact hc ⟨hts, lt_of_not_le hlt⟩

/-- Folding the comparison step over any seed list extends the meaning
of the accumulator to the seeds it has consumed. -/
theorem foldl_betterResult (fit : EosFit) :
    ∀ (seeds seen : List EoSParams) (acc : Option FitResult),
      BestSpec fit seen acc →
      BestSpec fit (seen ++ seeds)
        (seeds.foldl (fun best seed => betterResult best (fit seed)) acc) := by
  intro seeds
  induction seeds with
  | nil =>
    intro seen acc h
    simpa using h
  | cons s rest ih =>
    intro seen acc h
    rw [List.foldl_cons]
    have h1 := betterResult_step fit seen s acc h
    have h2 := ih (seen ++ [s]) (betterResult acc (fit s)) h1
    simpa [List.append_assoc] using h2

/-- C1: the multi-strategy controller runs its fixed seed list (current
manual parameters, the default (V[0], 130, 4), then B0 ∈ {100, 150, 200}
with V0 = V[0], B0' = 4); whenever it returns a result, that result is a
successful attempt from the list whose rms is no worse than the rms of
any individual successful attempt, and it returns nothing exactly when
every attempt fails (leaving the caller's manual parameters as the
fallback). -/
theorem fit_multiple_strategies_spec (fit : EosFit) (v0 : ℚ) (current : EoSParams) :
    (∀ r, fit_multiple_strategies fit v0 current = some r →
      r.success = true ∧ (∃ s ∈ strategySeeds v0 current, fit s = r) ∧
      ∀ s ∈ strategySeeds v0 current, (fit s).success = true →
        r.rms ≤ (fit s).rms) ∧
    (fit_multiple_strategies fit v0 current = none ↔
      ∀ s ∈ strategySeeds v0 current, (fit s).success = false) := by
  have h : BestSpec fit (strategySeeds v0 current)
      (fit_multiple_strategies fit v0 current) := by
    have h0 := foldl_betterResult fit (strategySeeds v0 current) [] none
      (fun s hs => absurd hs (List.not_mem_nil s))
    rw [List.nil_append] at h0
    exact h0
  constructor
  · intro r hr
    rw [hr] at h
    exact h
  · constructor
    · intro hn
      rw [hn] at h
      exact h
    · intro hall
      cases hv : fit_multiple_strategies fit v0 current with
      | none => rfl
      | some r =>
        rw [hv] at h
        obtain ⟨hs, ⟨s, hsm, hse⟩, _⟩ := h
        have hf := hall s hsm
        rw [hse] at hf
        rw [hf] at hs
        exact absurd hs (by simp)

/-- C1 witness: a fitter that always succeeds with rms = B0 of the seed;
the controller picks the B0 = 100 sweep strategy, whose rms 100 beats
the default strategy's 130. -/
theorem fit_multiple_strategies_spec_witness :
    fit_multiple_strategies fmsFitW 10 ⟨11, 120, 4⟩ = some ⟨true, ⟨10, 100, 4⟩, 100⟩ ∧
    (100 : ℚ) ≤ (fmsFitW ⟨10, 130, 4⟩).rms := by
  have heval : fit_multiple_strategies fmsFitW 10 ⟨11, 120, 4⟩
      = some ⟨true, ⟨10, 100, 4⟩, 100⟩ := by
    norm_num [fit_multiple_strategies, strategySeeds, betterResult, fmsFitW]
  have h := (fit_multiple_strategies_spec fmsFitW 10 ⟨11, 120, 4⟩).1 _ heval
  refine ⟨heval, ?_⟩
  have h2 := h.2.2 ⟨10, 130, 4⟩ (by norm_num [strategySeeds]) rfl
  exact h2

/-- C10: positions returned by automatic peak detection are actual
samples of the trace in strictly increasing order.  Hypotheses are the
documented contracts of the external calls: the Gaussian smoother
preserves the trace length, and find_peaks returns strictly increasing
in-range indices of its input; given those and strictly increasing x,
every returned position is an element of x (never interpolated) and the
returned list is strictly increasing. -/
theorem auto_find_peaks_spec (smooth : List ℚ → List ℚ)
    (fp : List ℚ → ℚ → ℕ → List ℕ) (x y : List ℚ)
    (hlen : (smooth y).length = y.length) (hxy : y.length = x.length)
    (hfp_sorted : ∀ ys prom d, (fp ys prom d).Pairwise (· < ·))
    (hfp_range : ∀ ys prom d, ∀ i ∈ fp ys prom d, i < ys.length)
    (hx : x.Pairwise (· < ·)) :
    (∀ p ∈ auto_find_peaks smooth fp x y, p ∈ x) ∧
    (auto_find_peaks smooth fp x y).Pairwise (· < ·) := by
  have hrange : ∀ i ∈ fp (smooth y)
      ((listMax (smooth y) - listMin (smooth y)) * 0.05) 5, i < x.length := by
    intro i hi
    have := hfp_range (smooth y) _ 5 i hi
    rw [hlen, hxy] at this
    exact this
  constructor
  · intro p hp
    simp only [auto_find_peaks, List.mem_map] at hp
    obtain ⟨i, hi, hpe⟩ := hp
    have h1 : i < x.length := hrange i hi
    rw [← hpe, List.getD_eq_getElem x 0 h1]
    exact List.getElem_mem h1
  · simp only [auto_find_peaks]
    rw [List.pairwise_map]
    apply List.Pairwise.imp_of_mem ?_
      (hfp_sorted (smooth y) ((listMax (smooth y) - listMin (smooth y)) * 0.05) 5)
    intro a b ha hb hab
    have hha := hrange a ha
    have hhb := hrange b hb
    rw [List.getD_eq_getElem x 0 hha, List.getD_eq_getElem x 0 hhb]
    exact List.pairwise_iff_getElem.mp hx a b hha hhb hab

/-- C10 witness: identity smoothing, a peak oracle returning indices
[1, 3] on the length-5 trace; the detected positions are the samples
x[1] = 1 and x[3] = 3, members of x in increasing order. -/
theorem auto_find_peaks_spec_witness :
    ((auto_find_peaks (fun l => l) fpW [0, 1, 2, 3, 4] [0, 5, 0, 7, 0]).getD 0 0
      ∈ ([0, 1, 2, 3, 4] : List ℚ)) ∧
    (auto_find_peaks (fun l => l) fpW [0, 1, 2, 3, 4] [0, 5, 0, 7, 0]).Pairwise (· < ·) := by
  have hs : ∀ ys prom d, (fpW ys prom d).Pairwise (· < ·) := by
    intro ys prom d
    unfold fpW
    split
    · decide
    · exact List.Pairwise.nil
  have hr : ∀ ys prom d, ∀ i ∈ fpW ys prom d, i < ys.length := by
    intro ys prom d i hi
    unfold fpW at hi
    split at hi
    · rename_i h5
      rw [h5]
      simp at hi
      rcases hi with h | h <;> omega
    · simp at hi
  have h := auto_find_peaks_spec (fun l => l) fpW [0, 1, 2, 3, 4] [0, 5, 0, 7, 0]
    rfl rfl hs hr (by norm_num [List.pairwise_cons])
  refine ⟨h.1 _ ?_, h.2⟩
  have he : auto_find_peaks (fun l => l) fpW [0, 1, 2, 3, 4] [0, 5, 0, 7, 0] = [1, 3] := by
    norm_num [auto_find_peaks, fpW, listMax, listMin]
  rw [he]
  norm_num
